import Mathlib

/-!
# Verification of the AI_IR_Remote utility scripts

Shallow embedding of the three Python scripts of the repository
(`capture_samples.py`, `test_voice_pipeline.py`,
`LLMtesting/test_groq_stt.py`) together with proofs of the claims about
them.

Modelling conventions:
* serial lines are modelled as the strings produced by
  `ser.readline().decode('utf-8', errors='ignore').strip()`, i.e. already
  decoded and stripped; each received line carries the wall-clock time (in
  whole seconds) observed by the `time.time()` check at the top of the loop
  iteration that consumes it;
* Python byte strings are `List Nat` with every element below 256;
* `bytes.fromhex` is modelled including its skipping of ASCII whitespace
  between digit pairs (CPython behaviour);
* filesystem and HTTP effects are represented by the constructors of result
  types: a `saved`/`httpRequest` value records exactly the write/request the
  script would perform.
-/

namespace CaptureSamples

/-- `OUTPUT_DIR` constant of capture_samples.py. -/
def OUTPUT_DIR : String := "training_samples"

/-- `TIMEOUT` constant of capture_samples.py (seconds to wait for recording). -/
def TIMEOUT : Int := 15

/-- Is `pat` a contiguous sublist of `l`?  Structural version of the Python
substring test `pat in s`, on the character lists of the two strings. -/
def hasSublist : List Char → List Char → Bool
  | [], pat => pat.isEmpty
  | h :: t, pat => pat.isPrefixOf (h :: t) || hasSublist t pat

/-- Python `pat in s` substring test. -/
def containsStr (s pat : String) : Bool := hasSublist s.data pat.data

/-- Python `s.startswith(pre)`. -/
def pyStartsWith (s pre : String) : Bool := pre.data.isPrefixOf s.data

/-- The characters Python treats as ASCII whitespace (`Py_ISSPACE`). -/
def isAsciiSpace (c : Char) : Bool :=
  c = ' ' || c = '\t' || c = '\n' || c = '\x0b' || c = '\x0c' || c = '\r'

/-- Python `s.strip()` on a character list: whitespace removed from both
ends. -/
def stripChars (l : List Char) : List Char :=
  ((l.dropWhile isAsciiSpace).reverse.dropWhile isAsciiSpace).reverse

/-- Python `s.strip()`. -/
def pyStrip (s : String) : String := ⟨stripChars s.data⟩

/-- Python `s.split(sep)` for a one-character separator: the list of
(colon-)separated segments; always non-empty. -/
def splitOnChar (sep : Char) : List Char → List (List Char)
  | [] => [[]]
  | c :: cs =>
    if c = sep then [] :: splitOnChar sep cs
    else
      match splitOnChar sep cs with
      | [] => [[c]]
      | g :: gs => (c :: g) :: gs

/-- Python `s.replace("---", "")`: every (leftmost, non-overlapping)
occurrence of `---` removed. -/
def removeTripleDash : List Char → List Char
  | '-' :: '-' :: '-' :: cs => removeTripleDash cs
  | c :: cs => c :: removeTripleDash cs
  | [] => []

/-- Label extraction from a start-marker line containing a colon:
`line.split(":")[1].replace("---", "").strip()`
(capture_samples.py line 113). -/
def labelFromMarker (line : String) : String :=
  ⟨stripChars (removeTripleDash ((splitOnChar ':' line.data).getD 1 []))⟩

/-- Numeric value of a hexadecimal digit character, if it is one
(CPython's `_PyLong_DigitValue` table restricted to values below 16), via
code points: digits occupy 48-57, lowercase a-f occupy 97-102, uppercase
A-F occupy 65-70. -/
def hexVal (c : Char) : Option Nat :=
  let n := c.toNat
  if 48 ≤ n ∧ n ≤ 57 then some (n - 48)
  else if 97 ≤ n ∧ n ≤ 102 then some (n - 87)
  else if 65 ≤ n ∧ n ≤ 70 then some (n - 55)
  else none

/-- Python `bytes.fromhex` on a character list (CPython
`_PyBytes_FromHex`): ASCII whitespace may appear before, after and between
two-digit pairs, never inside a pair; every pair contributes one byte; any
other character, or a lone trailing digit, is an error. -/
def fromhexChars : List Char → Option (List Nat)
  | [] => some []
  | c :: cs =>
    if isAsciiSpace c then fromhexChars cs
    else
      match hexVal c with
      | none => none
      | some hi =>
        match cs with
        | [] => none
        | d :: cs' =>
          match hexVal d with
          | none => none
          | some lo =>
            match fromhexChars cs' with
            | none => none
            | some rest => some ((16 * hi + lo) :: rest)

/-- Python `bytes.fromhex(s)`. -/
def pyFromhex (s : String) : Option (List Nat) := fromhexChars s.data

/-- The lowercase hexadecimal digit for `n < 16`, via code points: 48 is
the code of the zero digit and 97 that of the letter a (so 87 + n lands in
97-102 for n in 10-15). -/
def hexDigitChar (n : Nat) : Char :=
  Char.ofNat (if n < 10 then 48 + n else 87 + n)

/-- Two-digit lowercase hexadecimal rendering of one byte. -/
def byteToHex (b : Nat) : List Char := [hexDigitChar (b / 16), hexDigitChar (b % 16)]

/-- Hexadecimal encoding of a byte string (Python `bytes.hex()`), as
performed by the device before sending the payload over serial. -/
def hexEncode (bs : List Nat) : String := ⟨(bs.map byteToHex).flatten⟩

/-- Concatenation of a list of strings with no delimiter. -/
def concatStrings : List String → String
  | [] => ""
  | s :: ss => s ++ concatStrings ss

/-- One received serial line: `t` is the `time.time()` value (whole
seconds) observed by the timeout check of the iteration that reads the
line, `line` is the decoded and stripped text. -/
structure SerialEvent where
  t : Int
  line : String
deriving DecidableEq, Repr

/-- Outcome of `capture_sample`.  `timeout`, `noData` and `invalidHex` are
the three `return False` branches (after printing, respectively, the
timeout, no-audio-data and invalid-hex error); `saved` is the `return True`
branch and records the file actually written (path, label, decoded bytes);
`starved` is a modelling artefact for a finite input trace that ends while
the loop is still reading. -/
inductive CapResult where
  | timeout
  | noData
  | invalidHex
  | saved (filename : String) (label : String) (data : List Nat)
  | starved
deriving DecidableEq, Repr

/-- Code after the `while` loop of `capture_sample` (lines 125-155):
validate the accumulated hex string, decode it, and write
`training_samples/<label>/<label>_<timestamp>.wav`.  `ts` is the
`datetime.now().strftime("%Y%m%d_%H%M%S")` string. -/
def finishCapture (ts hexData actualLabel : String) : CapResult :=
  if hexData = "" then .noData
  else
    match pyFromhex hexData with
    | none => .invalidHex
    | some data =>
        .saved (OUTPUT_DIR ++ "/" ++ actualLabel ++ "/" ++ actualLabel ++ "_" ++ ts ++ ".wav")
          actualLabel data

/-- The `while True` read loop of `capture_sample` (lines 88-123): at each
iteration first compare the current time against `start_time + TIMEOUT`,
then read a line; skip empty lines; a line starting with `---WAV_START`
sets `capturing` and takes the label after the colon when one is present;
otherwise a line containing `---WAV_END---` breaks out to the
validation/saving code; otherwise the line is appended to `hex_data` when
`capturing` (and merely echoed when not). -/
def captureLoop (startTime : Int) (ts : String) :
    List SerialEvent → Bool → String → String → CapResult
  | [], _, _, _ => .starved
  | ev :: rest, capturing, hexData, actualLabel =>
    if ev.t - startTime > TIMEOUT then .timeout
    else if ev.line = "" then captureLoop startTime ts rest capturing hexData actualLabel
    else if pyStartsWith ev.line "---WAV_START" then
      captureLoop startTime ts rest true hexData
        (if containsStr ev.line ":" then labelFromMarker ev.line else actualLabel)
    else if containsStr ev.line "---WAV_END---" then
      finishCapture ts hexData actualLabel
    else if capturing then
      captureLoop startTime ts rest capturing (hexData ++ ev.line) actualLabel
    else
      captureLoop startTime ts rest capturing hexData actualLabel

/-- `capture_sample(ser, label)`: send the command (at wall-clock time
`startTime`), then run the read loop with `capturing = False`, empty
`hex_data`, and `actual_label = label`.  `events` is the sequence of lines
subsequently delivered by the serial port. -/
def capture_sample (label ts : String) (startTime : Int) (events : List SerialEvent) :
    CapResult :=
  captureLoop startTime ts events false "" label

/-- Does an outcome of `capture_sample` write a file? -/
def writesFile : CapResult → Bool
  | .saved _ _ _ => true
  | _ => false

/-- Duration estimate printed after saving (line 150):
`(file_size - 44) / (16000 * 2)`. -/
def durationEstimate (file_size : Nat) : ℚ := ((file_size : ℚ) - 44) / (16000 * 2)

/-! ## String helper lemmas -/

theorem strAppend_data (a b : String) : (a ++ b).data = a.data ++ b.data := rfl

theorem strEmpty_append (s : String) : "" ++ s = s := by
  cases s with
  | mk l => rfl

theorem strAppend_empty (s : String) : s ++ "" = s := by
  cases s with
  | mk l => exact congrArg String.mk (List.append_nil l)

theorem strAppend_assoc (a b c : String) : a ++ b ++ c = a ++ (b ++ c)  := by
  cases a with
  | mk la =>
    cases b with
    | mk lb =>
      cases c with
      | mk lc => exact congrArg String.mk (List.append_assoc la lb lc)

theorem ne_empty_of_contains_end {l : String}
    (h : containsStr l "---WAV_END---" = true) : ¬ (l = "") := by
  intro he
  subst he
  exact absurd h (by decide)

theorem ne_empty_of_starts_start {l : String}
    (h : pyStartsWith l "---WAV_START" = true) : ¬ (l = "") := by
  intro he
  subst he
  exact absurd h (by decide)

/-! ## Hex round-trip lemmas -/

theorem hexVal_hexDigitChar : ∀ n : Fin 16, hexVal (hexDigitChar n.val) = some n.val := by
  decide

theorem isAsciiSpace_hexDigitChar : ∀ n : Fin 16, isAsciiSpace (hexDigitChar n.val) = false := by
  decide

theorem fromhexChars_flatten_byteToHex (bs : List Nat) (hb : ∀ b ∈ bs, b < 256) :
    fromhexChars ((bs.map byteToHex).flatten) = some bs := by
  induction bs with
  | nil => rfl
  | cons b t ih =>
    have hblt : b < 256 := hb b (List.mem_cons_self b t)
    have hhi : b / 16 < 16 := Nat.div_lt_of_lt_mul hblt
    have hlo : b % 16 < 16 := Nat.mod_lt b (by norm_num)
    have e1 := isAsciiSpace_hexDigitChar ⟨b / 16, hhi⟩
    have e2 := hexVal_hexDigitChar ⟨b / 16, hhi⟩
    have e3 := hexVal_hexDigitChar ⟨b % 16, hlo⟩
    have e4 := ih (fun x hx => hb x (List.mem_cons_of_mem b hx))
    simp only [List.map_cons, List.flatten_cons, byteToHex, List.cons_append,
      List.nil_append, fromhexChars, e1, e2, e3, e4, Bool.false_eq_true, if_false]
    rw [Nat.div_add_mod b 16]

theorem hexEncode_ne_empty (b : Nat) (t : List Nat) : ¬ (hexEncode (b :: t) = "") := by
  intro h
  have := congrArg String.data h
  simp [hexEncode, byteToHex] at this

theorem pyFromhex_hexEncode (bs : List Nat) (hb : ∀ b ∈ bs, b < 256) :
    pyFromhex (hexEncode bs) = some bs :=
  fromhexChars_flatten_byteToHex bs hb

/-! ## Read-loop lemmas

Each lemma tracks one phase of the `while` loop of `capture_sample`
through a segment of the received-line trace. -/

/-- While `capturing` is false, lines that are within the deadline and
match neither marker (including empty lines) leave the loop state
untouched. -/
theorem captureLoop_skip (startTime : Int) (ts : String) (decoys rest : List SerialEvent)
    (hex lbl : String)
    (hd : ∀ d ∈ decoys, d.t - startTime ≤ TIMEOUT ∧
      pyStartsWith d.line "---WAV_START" = false ∧
      containsStr d.line "---WAV_END---" = false) :
    captureLoop startTime ts (decoys ++ rest) false hex lbl =
      captureLoop startTime ts rest false hex lbl := by
  induction decoys with
  | nil => rfl
  | cons d ds ih =>
    obtain ⟨h1, h2, h3⟩ := hd d (List.mem_cons_self d ds)
    have hds := fun x hx => hd x (List.mem_cons_of_mem d hx)
    rw [List.cons_append]
    simp only [captureLoop]
    rw [if_neg (not_lt.mpr h1)]
    by_cases hemp : d.line = ""
    · rw [if_pos hemp]
      exact ih hds
    · rw [if_neg hemp, if_neg (by simp [h2]), if_neg (by simp [h3]),
        if_neg (by simp)]
      exact ih hds

/-- While `capturing` is true, every in-deadline non-marker line is
appended (with no delimiter) to the accumulated hex string, and the first
line containing the end sentinel breaks out to the validation code with
that accumulation. -/
theorem captureLoop_payload (startTime : Int) (ts : String)
    (payload : List SerialEvent) (e : SerialEvent) (rest : List SerialEvent)
    (hex lbl : String)
    (hp : ∀ p ∈ payload, p.t - startTime ≤ TIMEOUT ∧
      pyStartsWith p.line "---WAV_START" = false ∧
      containsStr p.line "---WAV_END---" = false)
    (he1 : e.t - startTime ≤ TIMEOUT)
    (he2 : pyStartsWith e.line "---WAV_START" = false)
    (he3 : containsStr e.line "---WAV_END---" = true) :
    captureLoop startTime ts (payload ++ e :: rest) true hex lbl =
      finishCapture ts (hex ++ concatStrings (payload.map SerialEvent.line)) lbl := by
  induction payload generalizing hex with
  | nil =>
    rw [List.nil_append]
    simp only [captureLoop]
    rw [if_neg (not_lt.mpr he1), if_neg (ne_empty_of_contains_end he3),
      if_neg (by simp [he2]), if_pos he3, List.map_nil]
    simp only [concatStrings]
    rw [strAppend_empty]
  | cons p ps ih =>
    obtain ⟨h1, h2, h3⟩ := hp p (List.mem_cons_self p ps)
    have hps := fun x hx => hp x (List.mem_cons_of_mem p hx)
    rw [List.cons_append]
    simp only [captureLoop]
    rw [if_neg (not_lt.mpr h1)]
    by_cases hemp : p.line = ""
    · rw [if_pos hemp, ih hex hps, List.map_cons]
      simp only [concatStrings]
      rw [hemp, strEmpty_append]
    · rw [if_neg hemp, if_neg (by simp [h2]), if_neg (by simp [h3]), if_pos (by trivial),
        ih (hex ++ p.line) hps, List.map_cons]
      simp only [concatStrings]
      rw [strAppend_assoc]

/-- If every line before some over-deadline read is non-terminating (any
line containing the end sentinel also starts with the start sentinel, so
the `break` is never reached), the loop returns the timeout failure at
that read, in every state. -/
theorem captureLoop_timeout (startTime : Int) (ts : String)
    (es1 : List SerialEvent) (ev : SerialEvent) (es2 : List SerialEvent)
    (h1 : ∀ d ∈ es1, d.t - startTime ≤ TIMEOUT ∧
      (containsStr d.line "---WAV_END---" = true →
        pyStartsWith d.line "---WAV_START" = true))
    (h2 : ev.t - startTime > TIMEOUT) :
    ∀ capturing hex lbl,
      captureLoop startTime ts (es1 ++ ev :: es2) capturing hex lbl = .timeout := by
  induction es1 with
  | nil =>
    intro capturing hex lbl
    rw [List.nil_append]
    simp only [captureLoop]
    rw [if_pos h2]
  | cons d ds ih =>
    intro capturing hex lbl
    obtain ⟨hd1, hd2⟩ := h1 d (List.mem_cons_self d ds)
    have hds := fun x hx => h1 x (List.mem_cons_of_mem d hx)
    rw [List.cons_append]
    simp only [captureLoop]
    rw [if_neg (not_lt.mpr hd1)]
    by_cases hemp : d.line = ""
    · rw [if_pos hemp]
      exact ih hds capturing hex lbl
    · rw [if_neg hemp]
      by_cases hstart : pyStartsWith d.line "---WAV_START" = true
      · rw [if_pos hstart]
        exact ih hds true hex _
      · have hend : containsStr d.line "---WAV_END---" = false := by
          cases hcs : containsStr d.line "---WAV_END---" with
          | false => rfl
          | true => exact absurd (hd2 hcs) hstart
        rw [if_neg hstart, if_neg (by simp [hend])]
        cases capturing with
        | false =>
          rw [if_neg (by simp)]
          exact ih hds false hex lbl
        | true =>
          rw [if_pos (by trivial)]
          exact ih hds true (hex ++ d.line) lbl

end CaptureSamples

section CaptureClaims
open CaptureSamples

/-- C1, counterexample.  The claim says a line containing `---WAV_END---`
arriving before any `---WAV_START` line never terminates the capture.  In
the code the end-marker check is not guarded by `capturing`, so the very
first received line `---WAV_END---` breaks the loop: the capture fails
with the no-data error, and the same subsequent lines that would otherwise
produce a saved file are never consumed. -/
theorem c1_counterexample :
    capture_sample "hey_bob" "20260101_000000" 0
        [⟨0, "---WAV_END---"⟩, ⟨1, "---WAV_START---"⟩, ⟨2, "41"⟩, ⟨3, "---WAV_END---"⟩]
      = CapResult.noData ∧
    capture_sample "hey_bob" "20260101_000000" 0
        [⟨1, "---WAV_START---"⟩, ⟨2, "41"⟩, ⟨3, "---WAV_END---"⟩]
      = CapResult.saved "training_samples/hey_bob/hey_bob_20260101_000000.wav" "hey_bob"
          [65] := by
  decide

/-- C1, amended.  A received line containing `---WAV_END---` that arrives
before any line starting with `---WAV_START` terminates the read loop
immediately: after any number of in-deadline decoy lines matching neither
marker, such a line makes `capture_sample` fail with the no-audio-data
error (`return False`) and no file is written. -/
theorem c1_end_before_start_terminates (startTime : Int) (label ts : String)
    (decoys : List SerialEvent) (e : SerialEvent) (rest : List SerialEvent)
    (hd : ∀ d ∈ decoys, d.t - startTime ≤ TIMEOUT ∧
      pyStartsWith d.line "---WAV_START" = false ∧
      containsStr d.line "---WAV_END---" = false)
    (he1 : e.t - startTime ≤ TIMEOUT)
    (he2 : pyStartsWith e.line "---WAV_START" = false)
    (he3 : containsStr e.line "---WAV_END---" = true) :
    capture_sample label ts startTime (decoys ++ e :: rest) = CapResult.noData ∧
    writesFile (capture_sample label ts startTime (decoys ++ e :: rest)) = false := by
  have h : capture_sample label ts startTime (decoys ++ e :: rest) = CapResult.noData := by
    unfold capture_sample
    rw [captureLoop_skip startTime ts decoys _ "" label hd]
    simp only [captureLoop]
    rw [if_neg (not_lt.mpr he1), if_neg (ne_empty_of_contains_end he3),
      if_neg (by simp [he2]), if_pos he3]
    rfl
  exact ⟨h, by rw [h]; rfl⟩

/-- Witness for C1 (amended): one decoy log line, then an end-marker line;
the capture fails with the no-data error. -/
theorem c1_end_before_start_terminates_witness :
    capture_sample "hey_bob" "ts0" 0 [⟨0, "boot log"⟩, ⟨1, "---WAV_END---"⟩]
      = CapResult.noData := by
  have h := c1_end_before_start_terminates 0 "hey_bob" "ts0" [⟨0, "boot log"⟩]
      ⟨1, "---WAV_END---"⟩ [] (by decide) (by decide) (by decide) (by decide)
  exact h.1

/-- C2: for any run made of decoy log lines, a start-marker line, payload
lines and an end-marker line (all within the deadline, decoys and payload
matching neither marker), the hex string handed to the validation code is
exactly the delimiter-free concatenation of the payload lines — the lines
strictly between the two markers; no decoy line and neither marker line
contributes to it. -/
theorem c2_payload_is_between_markers (startTime : Int) (label ts : String)
    (decoys : List SerialEvent) (s : SerialEvent) (payload : List SerialEvent)
    (e : SerialEvent) (rest : List SerialEvent)
    (hd : ∀ d ∈ decoys, d.t - startTime ≤ TIMEOUT ∧
      pyStartsWith d.line "---WAV_START" = false ∧
      containsStr d.line "---WAV_END---" = false)
    (hs1 : s.t - startTime ≤ TIMEOUT)
    (hs2 : pyStartsWith s.line "---WAV_START" = true)
    (hp : ∀ p ∈ payload, p.t - startTime ≤ TIMEOUT ∧
      pyStartsWith p.line "---WAV_START" = false ∧
      containsStr p.line "---WAV_END---" = false)
    (he1 : e.t - startTime ≤ TIMEOUT)
    (he2 : pyStartsWith e.line "---WAV_START" = false)
    (he3 : containsStr e.line "---WAV_END---" = true) :
    capture_sample label ts startTime (decoys ++ s :: (payload ++ e :: rest)) =
      finishCapture ts (concatStrings (payload.map SerialEvent.line))
        (if containsStr s.line ":" then labelFromMarker s.line else label) := by
  unfold capture_sample
  rw [captureLoop_skip startTime ts decoys _ "" label hd]
  simp only [captureLoop]
  rw [if_neg (not_lt.mpr hs1), if_neg (ne_empty_of_starts_start hs2), if_pos hs2,
    captureLoop_payload startTime ts payload e rest "" _ hp he1 he2 he3,
    strEmpty_append]

/-- Witness for C2: a decoy, the markers and two payload lines; the saved
bytes come from the concatenation `dead` of the two payload lines. -/
theorem c2_payload_is_between_markers_witness :
    capture_sample "hey_bob" "ts1" 0
        [⟨0, "boot noise"⟩, ⟨1, "---WAV_START---"⟩, ⟨2, "de"⟩, ⟨3, "ad"⟩,
          ⟨4, "---WAV_END---"⟩]
      = CapResult.saved "training_samples/hey_bob/hey_bob_ts1.wav" "hey_bob" [222, 173] := by
  have h := c2_payload_is_between_markers 0 "hey_bob" "ts1"
      [⟨0, "boot noise"⟩] ⟨1, "---WAV_START---"⟩ [⟨2, "de"⟩, ⟨3, "ad"⟩] ⟨4, "---WAV_END---"⟩
      [] (by decide) (by decide) (by decide) (by decide) (by decide) (by decide) (by decide)
  exact h.trans (by decide)

/-- C3, counterexample.  For the empty byte string the claim fails: its hex
encoding is empty, so nothing is delivered between the markers, and
`capture_sample` returns the no-data failure without writing any file
rather than writing a file whose bytes equal the (empty) original. -/
theorem c3_empty_bytes_counterexample :
    hexEncode [] = "" ∧
    capture_sample "noise" "ts2" 0 [⟨0, "---WAV_START---"⟩, ⟨1, "---WAV_END---"⟩]
      = CapResult.noData ∧
    writesFile (capture_sample "noise" "ts2" 0
        [⟨0, "---WAV_START---"⟩, ⟨1, "---WAV_END---"⟩])
      = false := by
  decide

/-- C3, amended: round-trip for every non-empty byte string `b`.  If the
hex encoding of `b` is split into lines (matching neither marker, all
within the deadline) delivered between the start and end markers, the
concatenation re-assembled by `capture_sample` decodes back to exactly
`b`, and the file written holds exactly the bytes `b`. -/
theorem c3_hex_roundtrip_nonempty (startTime : Int) (label ts : String) (b : List Nat)
    (hb : ∀ x ∈ b, x < 256) (hne : b ≠ [])
    (s : SerialEvent) (payload : List SerialEvent) (e : SerialEvent)
    (rest : List SerialEvent)
    (hsplit : concatStrings (payload.map SerialEvent.line) = hexEncode b)
    (hs1 : s.t - startTime ≤ TIMEOUT)
    (hs2 : pyStartsWith s.line "---WAV_START" = true)
    (hp : ∀ p ∈ payload, p.t - startTime ≤ TIMEOUT ∧
      pyStartsWith p.line "---WAV_START" = false ∧
      containsStr p.line "---WAV_END---" = false)
    (he1 : e.t - startTime ≤ TIMEOUT)
    (he2 : pyStartsWith e.line "---WAV_START" = false)
    (he3 : containsStr e.line "---WAV_END---" = true) :
    capture_sample label ts startTime (s :: (payload ++ e :: rest)) =
      CapResult.saved
        (OUTPUT_DIR ++ "/" ++ (if containsStr s.line ":" then labelFromMarker s.line else label)
          ++ "/" ++ (if containsStr s.line ":" then labelFromMarker s.line else label)
          ++ "_" ++ ts ++ ".wav")
        (if containsStr s.line ":" then labelFromMarker s.line else label) b := by
  obtain ⟨b0, bt, rfl⟩ : ∃ b0 bt, b = b0 :: bt := by
    cases b with
    | nil => exact absurd rfl hne
    | cons a l => exact ⟨a, l, rfl⟩
  unfold capture_sample
  simp only [captureLoop]
  rw [if_neg (not_lt.mpr hs1), if_neg (ne_empty_of_starts_start hs2), if_pos hs2,
    captureLoop_payload startTime ts payload e rest "" _ hp he1 he2 he3,
    strEmpty_append, hsplit]
  unfold finishCapture
  rw [if_neg (hexEncode_ne_empty b0 bt), pyFromhex_hexEncode _ hb]

/-- Witness for C3 (amended): bytes `[171, 205]`, hex `abcd`, split into
the two lines `ab` and `cd`. -/
theorem c3_hex_roundtrip_nonempty_witness :
    capture_sample "noise" "ts3" 0
        [⟨0, "---WAV_START---"⟩, ⟨1, "ab"⟩, ⟨2, "cd"⟩, ⟨3, "---WAV_END---"⟩]
      = CapResult.saved "training_samples/noise/noise_ts3.wav" "noise" [171, 205] := by
  have h := c3_hex_roundtrip_nonempty 0 "noise" "ts3" [171, 205] (by decide) (by decide)
      ⟨0, "---WAV_START---"⟩ [⟨1, "ab"⟩, ⟨2, "cd"⟩] ⟨3, "---WAV_END---"⟩ []
      (by decide) (by decide) (by decide) (by decide) (by decide) (by decide) (by decide)
  exact h.trans (by decide)

/-- C4: if every line read within the deadline is non-terminating (any
line containing the end sentinel also starts with the start sentinel, so
the `break` is never reached) and some later read observes a time past
`start_time + TIMEOUT`, `capture_sample` returns the timeout failure
(`return False` after the timeout error) and writes no file.  The deadline
is checked once per line-read attempt: the over-deadline read itself is
what triggers the failure. -/
theorem c4_timeout_no_file (startTime : Int) (label ts : String)
    (es1 : List SerialEvent) (ev : SerialEvent) (es2 : List SerialEvent)
    (h1 : ∀ d ∈ es1, d.t - startTime ≤ TIMEOUT ∧
      (containsStr d.line "---WAV_END---" = true →
        pyStartsWith d.line "---WAV_START" = true))
    (h2 : ev.t - startTime > TIMEOUT) :
    capture_sample label ts startTime (es1 ++ ev :: es2) = CapResult.timeout ∧
    writesFile (capture_sample label ts startTime (es1 ++ ev :: es2)) = false := by
  have h := captureLoop_timeout startTime ts es1 ev es2 h1 h2 false "" label
  exact ⟨h, by unfold capture_sample; rw [h]; rfl⟩

/-- Witness for C4: one in-deadline decoy line, then a read 16 seconds
after the command was sent. -/
theorem c4_timeout_no_file_witness :
    capture_sample "hey_bob" "ts4" 0 [⟨0, "boot"⟩, ⟨16, "x"⟩] = CapResult.timeout := by
  have h := c4_timeout_no_file 0 "hey_bob" "ts4" [⟨0, "boot"⟩] ⟨16, "x"⟩ []
      (by decide) (by decide)
  exact h.1

/-- C5, counterexample.  The claim says `capture_sample` fails whenever the
accumulated hex string has odd length or contains a non-hex character.
The payload line `41 42` yields the accumulated hex string `41 42`, of odd
length 5 and containing the non-hex character space — yet `bytes.fromhex`
skips ASCII whitespace between digit pairs, the decode succeeds, and a
file is written. -/
theorem c5_saved_despite_odd_nonhex :
    capture_sample "hey_bob" "20260101_120000" 0
        [⟨0, "---WAV_START---"⟩, ⟨1, "41 42"⟩, ⟨2, "---WAV_END---"⟩]
      = CapResult.saved "training_samples/hey_bob/hey_bob_20260101_120000.wav" "hey_bob"
          [65, 66] ∧
    ("41 42").length % 2 = 1 ∧
    hexVal ' ' = none ∧
    ' ' ∈ ("41 42").data ∧
    pyFromhex "41 42" = some [65, 66] := by
  decide

/-- C5, amended.  After the end marker, `capture_sample` writes a file
exactly when the accumulated hex string is non-empty and `bytes.fromhex`
succeeds on it (ASCII whitespace between digit pairs being permitted);
in every other case — empty string, non-hex non-whitespace character,
whitespace splitting a digit pair, or an odd count of hex digits — it
fails without writing. -/
theorem c5_write_iff_decode (ts hexData lbl : String) :
    writesFile (finishCapture ts hexData lbl) = true ↔
      hexData ≠ "" ∧ (pyFromhex hexData).isSome = true := by
  unfold finishCapture
  by_cases h : hexData = ""
  · simp [h, writesFile]
  · cases hfh : pyFromhex hexData with
    | none => simp [h, hfh, writesFile]
    | some data => simp [h, hfh, writesFile]

/-- C6: a start-marker line containing a colon overrides the requested
label with its second colon-separated segment, `---` occurrences removed
and whitespace stripped (`labelFromMarker`); without a colon the requested
label stays.  On success the file path is
`training_samples/<effective label>/<effective label>_<timestamp>.wav`. -/
theorem c6_label_override_and_path (startTime : Int) (label ts : String)
    (s : SerialEvent) (payload : List SerialEvent) (e : SerialEvent)
    (rest : List SerialEvent) (b : List Nat)
    (hdec : pyFromhex (concatStrings (payload.map SerialEvent.line)) = some b)
    (hne : ¬ (concatStrings (payload.map SerialEvent.line) = ""))
    (hs1 : s.t - startTime ≤ TIMEOUT)
    (hs2 : pyStartsWith s.line "---WAV_START" = true)
    (hp : ∀ p ∈ payload, p.t - startTime ≤ TIMEOUT ∧
      pyStartsWith p.line "---WAV_START" = false ∧
      containsStr p.line "---WAV_END---" = false)
    (he1 : e.t - startTime ≤ TIMEOUT)
    (he2 : pyStartsWith e.line "---WAV_START" = false)
    (he3 : containsStr e.line "---WAV_END---" = true) :
    OUTPUT_DIR = "training_samples" ∧
    capture_sample label ts startTime (s :: (payload ++ e :: rest)) =
      CapResult.saved
        (OUTPUT_DIR ++ "/" ++ (if containsStr s.line ":" then labelFromMarker s.line else label)
          ++ "/" ++ (if containsStr s.line ":" then labelFromMarker s.line else label)
          ++ "_" ++ ts ++ ".wav")
        (if containsStr s.line ":" then labelFromMarker s.line else label) b := by
  refine ⟨rfl, ?_⟩
  unfold capture_sample
  simp only [captureLoop]
  rw [if_neg (not_lt.mpr hs1), if_neg (ne_empty_of_starts_start hs2), if_pos hs2,
    captureLoop_payload startTime ts payload e rest "" _ hp he1 he2 he3,
    strEmpty_append]
  unfold finishCapture
  rw [if_neg hne, hdec]

/-- Witness for C6: requested label `noise`, start marker carrying
` hey_bob ---` after the colon; the effective label becomes `hey_bob` and
the file lands under `training_samples/hey_bob/`. -/
theorem c6_label_override_and_path_witness :
    capture_sample "noise" "20260102_080000" 0
        [⟨0, "---WAV_START: hey_bob ---"⟩, ⟨1, "4869"⟩, ⟨2, "---WAV_END---"⟩]
      = CapResult.saved "training_samples/hey_bob/hey_bob_20260102_080000.wav" "hey_bob"
          [72, 105] := by
  have h := c6_label_override_and_path 0 "noise" "20260102_080000"
      ⟨0, "---WAV_START: hey_bob ---"⟩ [⟨1, "4869"⟩] ⟨2, "---WAV_END---"⟩ [] [72, 105]
      (by decide) (by decide) (by decide) (by decide) (by decide) (by decide) (by decide)
      (by decide)
  exact h.2.trans (by decide)

/-- C7: the printed duration estimate is `(file_size - 44) / (16000 * 2)`
seconds; a 44-byte payload reports 0 seconds and a `44 + 32000`-byte
payload reports exactly 1 second. -/
theorem c7_duration_estimate :
    (∀ n : Nat, durationEstimate n = ((n : ℚ) - 44) / (16000 * 2)) ∧
    durationEstimate 44 = 0 ∧ durationEstimate (44 + 32000) = 1 := by
  refine ⟨fun n => rfl, ?_, ?_⟩
  · unfold durationEstimate
    norm_num
  · unfold durationEstimate
    norm_num

end CaptureClaims

namespace VoicePipeline

/-- Python `s.find(c)` for a one-character needle: index of the first
occurrence, `-1` when absent. -/
def pyFind (s : String) (c : Char) : Int :=
  match s.data.findIdx? (fun a => a = c) with
  | some i => (i : Int)
  | none => -1

/-- Python `s.rfind(c)` for a one-character needle: index of the last
occurrence, `-1` when absent. -/
def pyRfind (s : String) (c : Char) : Int :=
  match s.data.reverse.findIdx? (fun a => a = c) with
  | some i => (s.data.length : Int) - 1 - (i : Int)
  | none => -1

/-- Python slice `s[a:b]` for `0 ≤ a ≤ b`, on the character list. -/
def pySliceList (l : List Char) (a b : Nat) : List Char := (l.drop a).take (b - a)

/-- Result of `parse_intent`: either the JSON value the (abstracted) JSON
parser produced, or the fallback record with the raw content and an empty
actions list, returned when the attempted parse raises `JSONDecodeError`.
The function is total: it never propagates an exception. -/
inductive ParseIntentResult (J : Type) where
  | intent (value : J)
  | rawFallback (content : String)
deriving DecidableEq, Repr

/-- The JSON-extraction step of `parse_intent`
(test_voice_pipeline.py lines 170-185), abstracted over the JSON parser
`loads` (`json.loads`, returning `none` for `JSONDecodeError`):
`json_start = content.find("{")`, `json_end = content.rfind("}") + 1`;
when `json_start >= 0 and json_end > json_start` parse the slice
`content[json_start:json_end]`, otherwise parse the whole content; a
failed parse returns the raw-fallback record instead of raising. -/
def parse_intent {J : Type} (loads : String → Option J) (content : String) :
    ParseIntentResult J :=
  let jsonStart := pyFind content '{'
  let jsonEnd := pyRfind content '}' + 1
  if jsonStart ≥ 0 ∧ jsonEnd > jsonStart then
    match loads ⟨pySliceList content.data jsonStart.toNat jsonEnd.toNat⟩ with
    | some v => .intent v
    | none => .rawFallback content
  else
    match loads content with
    | some v => .intent v
    | none => .rawFallback content

/-- The `ac_temp` arm of `execute_actions` (test_voice_pipeline.py line
222): `temp = max(16, min(30, value)) if value else 24`, where
`value = action.get("value")` is `none` when the key is absent; Python
truthiness sends both a missing value and the number 0 to the default
24. -/
def acTempSetting : Option Int → Int
  | none => 24
  | some v => if v = 0 then 24 else max 16 (min 30 v)

/-! ### Index characterization lemmas for find/rfind -/

theorem findIdx?_cons_eq {α : Type} (p : α → Bool) (x : α) (xs : List α) :
    (x :: xs).findIdx? p = if p x then some 0 else (xs.findIdx? p).map (· + 1) := by
  simp [List.findIdx?_cons]

theorem findIdx?_eq_some_of {α : Type} (p : α → Bool) (l : List α) (i : Nat) (a : α)
    (ha : l[i]? = some a) (hpa : p a = true)
    (hfirst : ∀ k, k < i → ∀ b, l[k]? = some b → p b = false) :
    l.findIdx? p = some i := by
  induction l generalizing i with
  | nil => simp at ha
  | cons x xs ih =>
    rw [findIdx?_cons_eq]
    cases i with
    | zero =>
      have hxa : x = a := by simpa using ha
      rw [if_pos (hxa ▸ hpa)]
    | succ n =>
      have hx : p x = false := hfirst 0 (Nat.succ_pos n) x (by simp)
      rw [if_neg (by simp [hx])]
      rw [List.getElem?_cons_succ] at ha
      rw [ih n ha (fun k hk b hb => hfirst (k + 1) (by omega) b (by simpa using hb))]
      rfl

theorem pyFind_eq (s : String) (c : Char) (i : Nat) (hi : s.data[i]? = some c)
    (hfirst : ∀ k, k < i → s.data[k]? ≠ some c) :
    pyFind s c = (i : Int) := by
  unfold pyFind
  rw [findIdx?_eq_some_of (fun a => a = c) s.data i c hi (by simp)
    (fun k hk b hb => by
      have hbc : b ≠ c := fun h => hfirst k hk (h ▸ hb)
      simp [hbc])]

theorem pyRfind_eq (s : String) (c : Char) (j : Nat) (hj : s.data[j]? = some c)
    (hlast : ∀ k, k < s.data.length → j < k → s.data[k]? ≠ some c) :
    pyRfind s c = (j : Int) := by
  have hjlt : j < s.data.length := (List.getElem?_eq_some.mp hj).1
  have hrev : s.data.reverse[s.data.length - 1 - j]? = some c := by
    rw [List.getElem?_reverse (by omega)]
    have he : s.data.length - 1 - (s.data.length - 1 - j) = j := by omega
    rw [he, hj]
  unfold pyRfind
  rw [findIdx?_eq_some_of (fun a => a = c) s.data.reverse (s.data.length - 1 - j) c hrev
    (by simp)
    (fun k hk b hb => by
      have hklen : k < s.data.length := by omega
      rw [List.getElem?_reverse hklen] at hb
      have hgt : j < s.data.length - 1 - k := by omega
      have hlt : s.data.length - 1 - k < s.data.length := by omega
      have hbc : b ≠ c := fun h => hlast _ hlt hgt (h ▸ hb)
      simp [hbc])]
  show ((s.data.length : Int) - 1 - ((s.data.length - 1 - j : Nat) : Int)) = (j : Int)
  omega

end VoicePipeline

section VoicePipelineClaims
open VoicePipeline

/-- C8: when `content` has its first `{` at index `i` and its last `}` at
index `j ≥ i`, `parse_intent` parses exactly the inclusive slice from `i`
to `j`; if that parse succeeds the parsed intent is returned, and if it
raises `JSONDecodeError` (the parser returns `none`) the raw-fallback
record is returned instead of an exception propagating. -/
theorem c8_first_to_last_brace {J : Type} (loads : String → Option J) (content : String)
    (i j : Nat) (hij : i ≤ j)
    (hi : content.data[i]? = some '{')
    (hfirst : ∀ k, k < i → content.data[k]? ≠ some '{')
    (hj : content.data[j]? = some '}')
    (hlast : ∀ k, k < content.data.length → j < k → content.data[k]? ≠ some '}') :
    parse_intent loads content =
      match loads ⟨(content.data.drop i).take (j + 1 - i)⟩ with
      | some v => ParseIntentResult.intent v
      | none => ParseIntentResult.rawFallback content := by
  simp only [parse_intent]
  rw [pyFind_eq content '{' i hi hfirst, pyRfind_eq content '}' j hj hlast]
  rw [if_pos (by constructor <;> omega)]
  have h1 : ((i : Int)).toNat = i := by omega
  have h2 : (((j : Int) + 1)).toNat = j + 1 := by omega
  rw [h1, h2]
  rfl

/-- Witness for C8: content with prose around the braces; the slice from
the first brace to the last brace is what gets parsed. -/
theorem c8_first_to_last_brace_witness :
    parse_intent (fun s => if s = "{A}" then some 0 else none) "x{A}y"
      = ParseIntentResult.intent 0 := by
  have h := c8_first_to_last_brace (fun s => if s = "{A}" then some 0 else none) "x{A}y"
      1 3 (by decide) (by decide) (by decide) (by decide) (by decide)
  exact h.trans (by decide)

/-- C10: for a truthy (non-zero) requested temperature `v` the reported
temperature is `max(16, min(30, v))`, which lies in 16-30; for a missing
value or the falsy value 0 the default 24 is reported — in particular a
requested temperature of 0 yields 24, not the clamp result 16. -/
theorem c10_ac_temp_clamp (v : Int) (hv : v ≠ 0) :
    acTempSetting (some v) = max 16 (min 30 v) ∧
    16 ≤ acTempSetting (some v) ∧ acTempSetting (some v) ≤ 30 ∧
    acTempSetting none = 24 ∧ acTempSetting (some 0) = 24 ∧
    acTempSetting (some 0) ≠ 16 := by
  have h : acTempSetting (some v) = max 16 (min 30 v) := by
    simp only [acTempSetting]
    rw [if_neg hv]
  refine ⟨h, ?_, ?_, rfl, rfl, by decide⟩
  · rw [h]
    exact le_max_left _ _
  · rw [h]
    exact max_le (by norm_num) (min_le_left _ _)

/-- Witness for C10 at the out-of-range request 35, clamped to 30. -/
theorem c10_ac_temp_clamp_witness :
    acTempSetting (some 35) = max 16 (min 30 35) ∧
    16 ≤ acTempSetting (some 35) ∧ acTempSetting (some 35) ≤ 30 ∧
    acTempSetting none = 24 ∧ acTempSetting (some 0) = 24 ∧
    acTempSetting (some 0) ≠ 16 :=
  c10_ac_temp_clamp 35 (by decide)

end VoicePipelineClaims

namespace GroqStt

/-- The shipped default `GROQ_API_KEY` constant of
LLMtesting/test_groq_stt.py (line 39). -/
def GROQ_API_KEY : String := "YOUR API KEY HERE"

/-- Outcome of `transcribe_audio` up to the point where the HTTP request
is issued: the placeholder-credential diagnostic (`return None` with the
missing-key message), the missing-file diagnostic (`return None`), or the
POST to the transcription endpoint carrying the given `Authorization`
header value.  The response handling that follows the request is outside
the scope of the claims. -/
inductive TranscribeResult where
  | missingKey
  | fileNotFound
  | httpRequest (authorization : String) (path : String)
deriving DecidableEq, Repr

/-- `transcribe_audio(audio_path)` of test_groq_stt.py (lines 60-103),
up to issuing the request: first the placeholder check
`GROQ_API_KEY == "YOUR_GROQ_API_KEY_HERE"`, then the file-existence
check, then the POST with header `Authorization: Bearer <GROQ_API_KEY>`.
`fileExists` abstracts `os.path.exists`. -/
def transcribe_audio (fileExists : String → Bool) (audio_path : String) :
    TranscribeResult :=
  if GROQ_API_KEY = "YOUR_GROQ_API_KEY_HERE" then .missingKey
  else if fileExists audio_path = false then .fileNotFound
  else .httpRequest ("Bearer " ++ GROQ_API_KEY) audio_path

end GroqStt

section GroqSttClaims
open GroqStt

/-- C9, counterexample.  The claim's consequence "for every input path
transcribe_audio … proceeds to issue the HTTP request" fails for a path
whose file does not exist: the function returns the file-not-found
diagnostic before any request is built (the missing-key branch is indeed
skipped, as the first conjunct shows). -/
theorem c9_counterexample :
    GROQ_API_KEY ≠ "YOUR_GROQ_API_KEY_HERE" ∧
    transcribe_audio (fun _ => false) "sample.wav" = TranscribeResult.fileNotFound := by
  decide

/-- C9, amended.  The placeholder-credential branch of `transcribe_audio`
is unreachable with the shipped default: `GROQ_API_KEY` (value
`YOUR API KEY HERE`) never equals the checked literal
`YOUR_GROQ_API_KEY_HERE`, so for every path the missing-key diagnostic is
skipped; whenever the file exists, the HTTP request is issued with the
placeholder as bearer token. -/
theorem c9_placeholder_branch_unreachable (fileExists : String → Bool) (path : String) :
    GROQ_API_KEY ≠ "YOUR_GROQ_API_KEY_HERE" ∧
    transcribe_audio fileExists path ≠ TranscribeResult.missingKey ∧
    (fileExists path = true →
      transcribe_audio fileExists path
        = TranscribeResult.httpRequest ("Bearer " ++ GROQ_API_KEY) path) := by
  refine ⟨by decide, ?_, ?_⟩
  · unfold transcribe_audio
    rw [if_neg (by decide)]
    by_cases h : fileExists path = false
    · rw [if_pos h]
      exact fun hc => TranscribeResult.noConfusion hc
    · rw [if_neg h]
      exact fun hc => TranscribeResult.noConfusion hc
  · intro hex
    unfold transcribe_audio
    rw [if_neg (by decide), if_neg (by simp [hex])]

/-- Witness for C9 (amended): with an existing file, the request is
issued with the placeholder key as bearer token. -/
theorem c9_placeholder_branch_unreachable_witness :
    transcribe_audio (fun _ => true) "a.wav"
      = TranscribeResult.httpRequest "Bearer YOUR API KEY HERE" "a.wav" := by
  have h := c9_placeholder_branch_unreachable (fun _ => true) "a.wav"
  exact (h.2.2 rfl).trans (by decide)

end GroqSttClaims

